import Mathlib

/-!
Verification of the studyingForDummies quiz application core.

The development shallowly embeds, in Lean 4:
  - the Content Renderer (`parseQuestionContent` from the React frontend,
    src/unnamed/part_000), which splits a question prompt on the CODE
    sentinel and classifies the resulting fragments as prose or code;
  - the history log writers of the legacy static frontend
    (static/script.js) and of the React results screen
    (ResultsScreen.jsx): entry construction and the capped newest-first
    list;
  - the performance-message threshold functions of both frontends;
  - the Question-Bank Parser and the Quiz Session Engine.  These two
    components live in the backend that both frontends call over HTTP;
    that backend source is not part of this tree, so they are modelled
    from the specification text, as marked on each definition.

JavaScript string operations are embedded as structural functions over
character lists so that every definition evaluates by kernel reduction.
Machine integers do not arise: all counts are small natural numbers, and
the percentage arithmetic is exact rational arithmetic rounded half-up.
-/

namespace StudyQuiz

/-- Whitespace-trimming of a character list from both ends; embeds the
JavaScript `String.prototype.trim` used on the ASCII study text. -/
def trimChars (l : List Char) : List Char :=
  ((l.dropWhile Char.isWhitespace).reverse.dropWhile Char.isWhitespace).reverse

/-- Embedding of `text.trim()` on strings. -/
def jsTrim (s : String) : String := String.mk (trimChars s.data)

/-- Worker for `jsSplit`: scans the text left to right, accumulating the
current fragment; as soon as the accumulated text ends with the separator,
the fragment before the separator is emitted and the accumulator restarts.
Scanning left to right makes the matches the leftmost non-overlapping
occurrences, exactly as in JavaScript `String.prototype.split`. -/
def splitCharsAux (sep : List Char) : List Char → List Char → List (List Char)
  | acc, [] => [acc]
  | acc, c :: rest =>
    let acc2 := acc ++ [c]
    if sep.isSuffixOf acc2 then
      (acc2.take (acc2.length - sep.length)) :: splitCharsAux sep [] rest
    else
      splitCharsAux sep acc2 rest

/-- Embedding of `text.split(sep)` for the non-empty literal separators the
application uses (the sentinel markers and the newline). -/
def jsSplit (sep text : String) : List String :=
  (splitCharsAux sep.data [] text.data).map String.mk

/-- Kind tag of a rendered fragment of a question prompt. -/
inductive SegKind where
  | prose
  | code
deriving DecidableEq, Repr

/-- One rendered fragment of a question prompt: its kind and its (trimmed)
text content. -/
structure Segment where
  kind : SegKind
  content : String
deriving DecidableEq, Repr

/-- The CODE sentinel used by the renderer and by question authors. -/
def codeMarker : String := "\"\"\"CODE\"\"\""

/-- Rendering loop of `parseQuestionContent`: walks the fragments produced
by the split together with their 0-based index.  An odd-indexed fragment is
always emitted as a code segment with trimmed content; an even-indexed
fragment is emitted as a prose segment with trimmed content only when the
trimmed content is non-empty, otherwise it is dropped (the source renders
`part.trim() && <div>...`, and a falsy empty string renders nothing). -/
def renderSegs : Nat → List String → List Segment
  | _, [] => []
  | i, p :: rest =>
    if i % 2 = 1 then
      ⟨SegKind.code, jsTrim p⟩ :: renderSegs (i + 1) rest
    else if jsTrim p ≠ "" then
      ⟨SegKind.prose, jsTrim p⟩ :: renderSegs (i + 1) rest
    else
      renderSegs (i + 1) rest

/-- Embedding of `parseQuestionContent` (src/unnamed/part_000): a falsy text
argument returns null, modelled as `none` for the empty string; otherwise
the text is split on the CODE marker and the fragments are rendered by
position parity. -/
def parseQuestionContent (text : String) : Option (List Segment) :=
  if text = "" then none
  else some (renderSegs 0 (jsSplit codeMarker text))

/-- The results payload the backend returns and both frontends consume. -/
structure ResultsPayload where
  score : Nat
  total : Nat
  percentage : Nat
deriving DecidableEq, Repr

/-- One persisted history record; the structure has exactly the five fields
written by both history writers. -/
structure HistoryEntry where
  date : String
  score : Nat
  total : Nat
  percentage : Nat
  duration : String
deriving DecidableEq, Repr

/-- Duration string of the static frontend, from a whole number of seconds:
minutes then seconds. -/
def formatDuration (quizTime : Nat) : String :=
  toString (quizTime / 60) ++ "m " ++ toString (quizTime % 60) ++ "s"

/-- Entry construction of `saveQuizToHistory` (static/script.js).  The ISO
date string and the elapsed milliseconds are ambient inputs (`new
Date().toISOString()`, `Date.now() - quizStartTime`) passed as parameters;
an unset `quizStartTime` gives elapsed seconds 0, and `Math.round` on a
non-negative millisecond count is floor after adding half a second. -/
def makeEntryStatic (dateIso : String) (elapsedMs : Option Nat)
    (data : ResultsPayload) : HistoryEntry :=
  let quizTime := match elapsedMs with
    | some ms => (ms + 500) / 1000
    | none => 0
  { date := dateIso, score := data.score, total := data.total,
    percentage := data.percentage, duration := formatDuration quizTime }

/-- Entry construction of `fetchResults` (ResultsScreen.jsx); the duration
field is the fixed placeholder string. -/
def makeEntryReact (dateIso : String) (data : ResultsPayload) : HistoryEntry :=
  { date := dateIso, score := data.score, total := data.total,
    percentage := data.percentage, duration := "N/A" }

/-- The capped-list update shared by `saveQuizToHistory` (static/script.js)
and `fetchResults` (ResultsScreen.jsx): unshift the new entry to the front,
then pop the last entry when the length exceeds 20. -/
def saveQuizToHistory (history : List HistoryEntry) (entry : HistoryEntry) :
    List HistoryEntry :=
  let h := entry :: history
  if h.length > 20 then h.dropLast else h

/-- Performance message of the legacy static frontend (`showResults` in
static/script.js). -/
def showResultsMessage (percentage : Int) : String :=
  if percentage ≥ 90 then "Excellent work! 🌟"
  else if percentage ≥ 70 then "Good job! 👍"
  else if percentage ≥ 50 then "Not bad! Keep practicing. 📚"
  else "Keep studying! You'll do better next time. 💪"

/-- Performance message of the React results screen (ResultsScreen.jsx). -/
def resultsScreenMessage (percentage : Int) : String :=
  if percentage ≥ 90 then "Excellent work! 🌟"
  else if percentage ≥ 70 then "Good job! 👍"
  else if percentage ≥ 50 then "Not bad! Keep practicing. 📚"
  else "Keep studying! You'll do better next time. 💪"

/-- The QUESTION sentinel separating question blocks. -/
def questionMarker : String := "\"\"\"QUESTION\"\"\""

/-- The CHOICES sentinel introducing the four choice lines. -/
def choicesMarker : String := "\"\"\"CHOICES\"\"\""

/-- The ANSWER sentinel introducing the answer letter. -/
def answerMarker : String := "\"\"\"ANSWER\"\"\""

/-- Modelled from the spec: a validated question record produced by the
Question-Bank Parser, whose source (the backend behind the /api routes) is
not in this tree.  The prompt text is preserved verbatim (trimmed); the
Content Renderer segments it later. -/
structure QuestionRecord where
  text : String
  choices : List (Char × String)
  correctLetter : Char
deriving DecidableEq, Repr

/-- Modelled from the spec: a parse failure naming the 1-based index of the
failing block and the rule that failed. -/
structure ParseError where
  blockIndex : Nat
  reason : String
deriving DecidableEq, Repr

/-- The four permitted choice letters. -/
def letterChoices : List Char := ['A', 'B', 'C', 'D']

/-- Modelled from the spec: one choice line must match
`<single capital letter A-D>: <remaining text>`. -/
def parseChoiceLine (line : String) : Option (Char × String) :=
  match line.data with
  | c :: ':' :: rest =>
    if letterChoices.contains c then some (c, jsTrim (String.mk rest)) else none
  | _ => none

/-- Modelled from the spec: validation of one question block (the chunk
after one QUESTION marker).  The text before the single CHOICES marker is
the prompt, which must trim non-empty; between CHOICES and the single
ANSWER marker stand the choice lines, which after dropping blank lines must
be exactly four well-formed lines whose letters are exactly A, B, C, D; the
trimmed text after ANSWER must be a single letter among the choices. -/
def parseBlock (block : String) : Except String QuestionRecord :=
  match jsSplit choicesMarker block with
  | [beforeChoices, afterChoices] =>
    match jsSplit answerMarker afterChoices with
    | [choicesPart, answerPart] =>
      let prompt := jsTrim beforeChoices
      if prompt = "" then Except.error "empty question prompt"
      else
        let ls := ((jsSplit "\n" choicesPart).map jsTrim).filter (fun l => l ≠ "")
        match ls.mapM parseChoiceLine with
        | none => Except.error "malformed choice line"
        | some choices =>
          if choices.length ≠ 4 then Except.error "wrong choice count"
          else
            let letters := choices.map Prod.fst
            if ¬ letterChoices.all (fun c => letters.contains c) then
              Except.error "choice letters are not exactly A, B, C, D"
            else
              match (jsTrim answerPart).data with
              | [c] =>
                if letters.contains c then
                  Except.ok { text := prompt, choices := choices, correctLetter := c }
                else Except.error "answer letter not among the choices"
              | _ => Except.error "answer is not a single letter"
    | _ => Except.error "missing or duplicated ANSWER marker"
  | _ => Except.error "missing or duplicated CHOICES marker"

/-- Modelled from the spec: validate the blocks in order, numbering them
from 1; the first failing block aborts the whole parse with its index and
rule, so no partial deck can be produced. -/
def parseBlocks : Nat → List String → Except ParseError (List QuestionRecord)
  | _, [] => Except.ok []
  | i, b :: rest =>
    match parseBlock b with
    | Except.error r => Except.error ⟨i, r⟩
    | Except.ok q =>
      match parseBlocks (i + 1) rest with
      | Except.error e => Except.error e
      | Except.ok qs => Except.ok (q :: qs)

/-- Modelled from the spec: `parse(rawText)` splits the raw text on the
QUESTION marker, ignores the preamble before the first marker, requires at
least one block (an empty deck is disallowed), and validates every block
atomically. -/
def parse (raw : String) : Except ParseError (List QuestionRecord) :=
  let blocks := (jsSplit questionMarker raw).drop 1
  if blocks.isEmpty then Except.error ⟨0, "no question blocks"⟩
  else parseBlocks 1 blocks

/-- Modelled from the spec: sequencing-misuse errors of the session state
machine. -/
inductive SessionError where
  | alreadyAnswered
  | notAnswered
  | outOfRange
  | notCompleted
deriving DecidableEq, Repr

/-- Modelled from the spec: the state of the session finite-state machine. -/
inductive SessionState where
  | inProgress (currentIndex score : Nat) (answeredCurrent : Bool)
  | completed (score total : Nat)
deriving DecidableEq, Repr

/-- Modelled from the spec: a quiz session owns a fixed deck and the machine
state. -/
structure QuizSession where
  deck : List QuestionRecord
  state : SessionState
deriving DecidableEq, Repr

/-- Modelled from the spec: the feedback returned by `submitAnswer`. -/
structure SubmitFeedback where
  correct : Bool
  correctLetter : Char
deriving DecidableEq, Repr

/-- Modelled from the spec: the initial session over a deck. -/
def QuizSession.start (deck : List QuestionRecord) : QuizSession :=
  ⟨deck, SessionState.inProgress 0 0 false⟩

/-- Modelled from the spec: `submitAnswer(letter)` is valid only in
`InProgress` with `answeredCurrent == false`; it fails with
`AlreadyAnsweredError` when the current question was already answered, and
with `OutOfRangeError` outside `InProgress`.  It compares the letter to the
current record's correct letter, increments the score on a match, marks the
question answered, and does not advance. -/
def submitAnswer (s : QuizSession) (letter : Char) :
    Except SessionError (QuizSession × SubmitFeedback) :=
  match s.state with
  | SessionState.completed _ _ => Except.error SessionError.outOfRange
  | SessionState.inProgress i sc answered =>
    if answered then Except.error SessionError.alreadyAnswered
    else
      match s.deck.get? i with
      | none => Except.error SessionError.outOfRange
      | some q =>
        let correct := letter == q.correctLetter
        let sc2 := if correct then sc + 1 else sc
        Except.ok (⟨s.deck, SessionState.inProgress i sc2 true⟩,
          ⟨correct, q.correctLetter⟩)

/-- Modelled from the spec: `advance()` is valid only after an answer; it
moves to the next question, or to `Completed` past the last one. -/
def advance (s : QuizSession) : Except SessionError QuizSession :=
  match s.state with
  | SessionState.completed _ _ => Except.error SessionError.outOfRange
  | SessionState.inProgress i sc answered =>
    if answered then
      if i + 1 = s.deck.length then
        Except.ok ⟨s.deck, SessionState.completed sc s.deck.length⟩
      else
        Except.ok ⟨s.deck, SessionState.inProgress (i + 1) sc false⟩
    else Except.error SessionError.notAnswered

/-- Modelled from the spec: `restart()` resets to the initial state over the
same deck. -/
def restart (s : QuizSession) : QuizSession :=
  ⟨s.deck, SessionState.inProgress 0 0 false⟩

/-- Half-up rounding of `100 * score / total` in exact natural arithmetic:
floor of `(100 * score) / total + 1/2`, cleared of denominators. -/
def roundHalfUpPercent (score total : Nat) : Nat :=
  (200 * score + total) / (2 * total)

/-- Modelled from the spec: `results()` is valid only in `Completed` (the
strict policy the spec settles on) and returns the score, the deck length
and the half-up rounded percentage. -/
def results (s : QuizSession) : Except SessionError ResultsPayload :=
  match s.state with
  | SessionState.completed sc _ =>
    Except.ok ⟨sc, s.deck.length, roundHalfUpPercent sc s.deck.length⟩
  | SessionState.inProgress _ _ _ => Except.error SessionError.notCompleted

/-- The first failing block determines the outcome of block validation: if
any block at position i fails, then some earliest block at a position j at
most i fails, and the whole validation aborts with that block's 1-based
number (counting from the start number) and its failed rule. -/
theorem parseBlocks_first_error (blocks : List String) :
    ∀ (start i : Nat) (b r : String),
      blocks.get? i = some b → parseBlock b = Except.error r →
      ∃ j bj rj, j ≤ i ∧ blocks.get? j = some bj ∧
        parseBlock bj = Except.error rj ∧
        parseBlocks start blocks = Except.error ⟨start + j, rj⟩ := by
  induction blocks with
  | nil => intro start i b r hg _; simp at hg
  | cons b0 rest ih =>
    intro start i b r hg hb
    cases herr : parseBlock b0 with
    | error r0 =>
      refine ⟨0, b0, r0, Nat.zero_le _, rfl, herr, ?_⟩
      rw [parseBlocks, herr]
      simp
    | ok q =>
      cases i with
      | zero =>
        rw [List.get?_cons_zero] at hg
        injection hg with hb0
        subst hb0
        rw [herr] at hb
        simp at hb
      | succ i0 =>
        rw [List.get?_cons_succ] at hg
        obtain ⟨j, bj, rj, hji, hgj, hbj, hpb⟩ := ih (start + 1) i0 b r hg hb
        refine ⟨j + 1, bj, rj, by omega, ?_, hbj, ?_⟩
        · rw [List.get?_cons_succ]; exact hgj
        · have heq : start + (j + 1) = start + 1 + j := by omega
          rw [heq, parseBlocks, herr, hpb]

/-- Every segment the rendering loop emits originates in a fragment of the
split: its content is that fragment trimmed, its kind is code exactly when
the fragment's absolute index is odd, and a prose segment only arises from a
fragment whose trimmed text is non-empty. -/
theorem renderSegs_mem_origin (parts : List String) :
    ∀ (i : Nat) (s : Segment), s ∈ renderSegs i parts →
      ∃ j p, parts.get? j = some p ∧ s.content = jsTrim p ∧
        (s.kind = SegKind.code ↔ (i + j) % 2 = 1) ∧
        (s.kind = SegKind.prose → jsTrim p ≠ "") := by
  induction parts with
  | nil => intro i s h; simp [renderSegs] at h
  | cons p rest ih =>
    intro i s h
    rw [renderSegs] at h
    by_cases hi : i % 2 = 1
    · rw [if_pos hi] at h
      rcases List.mem_cons.mp h with h1 | h2
      · subst h1
        exact ⟨0, p, rfl, rfl, by simp [hi], by intro hk; simp at hk⟩
      · obtain ⟨j, q, hg, hc, hk, hp⟩ := ih (i + 1) s h2
        refine ⟨j + 1, q, by simpa using hg, hc, ?_, hp⟩
        have hadd : i + 1 + j = i + (j + 1) := by omega
        rw [hadd] at hk
        exact hk
    · rw [if_neg hi] at h
      by_cases hp0 : jsTrim p ≠ ""
      · rw [if_pos hp0] at h
        rcases List.mem_cons.mp h with h1 | h2
        · subst h1
          refine ⟨0, p, rfl, rfl, ?_, fun _ => hp0⟩
          constructor
          · intro hk; simp at hk
          · intro hpar; exact absurd (by simpa using hpar) hi
        · obtain ⟨j, q, hg, hc, hk, hp⟩ := ih (i + 1) s h2
          refine ⟨j + 1, q, by simpa using hg, hc, ?_, hp⟩
          have hadd : i + 1 + j = i + (j + 1) := by omega
          rw [hadd] at hk
          exact hk
      · rw [if_neg hp0] at h
        obtain ⟨j, q, hg, hc, hk, hp⟩ := ih (i + 1) s h
        refine ⟨j + 1, q, by simpa using hg, hc, ?_, hp⟩
        have hadd : i + 1 + j = i + (j + 1) := by omega
        rw [hadd] at hk
        exact hk

/-- Conversely, every fragment at an odd absolute index is rendered: the code
segment carrying its trimmed content is in the output, even when that
trimmed content is empty. -/
theorem renderSegs_code_complete (parts : List String) :
    ∀ (i j : Nat) (p : String), parts.get? j = some p → (i + j) % 2 = 1 →
      (⟨SegKind.code, jsTrim p⟩ : Segment) ∈ renderSegs i parts := by
  induction parts with
  | nil => intro i j p hg _; simp at hg
  | cons q rest ih =>
    intro i j p hg hpar
    cases j with
    | zero =>
      rw [List.get?_cons_zero] at hg
      injection hg with hq
      subst hq
      have hi : i % 2 = 1 := by omega
      rw [renderSegs, if_pos hi]
      exact List.mem_cons_self _ _
    | succ j0 =>
      rw [List.get?_cons_succ] at hg
      have hmem := ih (i + 1) j0 p hg (by omega)
      rw [renderSegs]
      by_cases hi : i % 2 = 1
      · rw [if_pos hi]; exact List.mem_cons_of_mem _ hmem
      · rw [if_neg hi]
        by_cases hq : jsTrim q ≠ ""
        · rw [if_pos hq]; exact List.mem_cons_of_mem _ hmem
        · rw [if_neg hq]; exact hmem

/-- When the fragment list ends with a fragment at an odd absolute index, the
rendered output ends with the code segment carrying that fragment. -/
theorem renderSegs_concat_code (l : List String) :
    ∀ (i : Nat) (p : String), (i + l.length) % 2 = 1 →
      ∃ pre, renderSegs i (l ++ [p]) = pre ++ [⟨SegKind.code, jsTrim p⟩] := by
  induction l with
  | nil =>
    intro i p hpar
    have hi : i % 2 = 1 := by simpa using hpar
    refine ⟨[], ?_⟩
    rw [List.nil_append, renderSegs, if_pos hi, renderSegs, List.nil_append]
  | cons q rest ih =>
    intro i p hpar
    have hpar2 : (i + 1 + rest.length) % 2 = 1 := by
      simp only [List.length_cons] at hpar
      omega
    obtain ⟨pre, hpre⟩ := ih (i + 1) p hpar2
    rw [List.cons_append, renderSegs]
    by_cases hi : i % 2 = 1
    · rw [if_pos hi, hpre]
      exact ⟨⟨SegKind.code, jsTrim q⟩ :: pre, rfl⟩
    · rw [if_neg hi]
      by_cases hq : jsTrim q ≠ ""
      · rw [if_pos hq, hpre]
        exact ⟨⟨SegKind.prose, jsTrim q⟩ :: pre, rfl⟩
      · rw [if_neg hq, hpre]
        exact ⟨pre, rfl⟩

/-- The concrete example text of the segmentation-parity property. -/
def exampleSegText : String := "intro \"\"\"CODE\"\"\" x=1 \"\"\"CODE\"\"\" outro"

/-- C1: the Content Renderer splits the input on the CODE marker and
classifies the fragments by 0-based position — each rendered segment comes
from a fragment of the split, carries that fragment trimmed, and is code
exactly when the fragment index is odd — and on the example text the output
is exactly prose intro, code x=1, prose outro. -/
theorem content_renderer_parity :
    parseQuestionContent exampleSegText =
      some [⟨SegKind.prose, "intro"⟩, ⟨SegKind.code, "x=1"⟩, ⟨SegKind.prose, "outro"⟩] ∧
    ∀ (text : String) (segs : List Segment) (s : Segment),
      parseQuestionContent text = some segs → s ∈ segs →
      ∃ j p, (jsSplit codeMarker text).get? j = some p ∧ s.content = jsTrim p ∧
        (s.kind = SegKind.code ↔ j % 2 = 1) := by
  constructor
  · rfl
  · intro text segs s hpc hmem
    rw [parseQuestionContent] at hpc
    by_cases ht : text = ""
    · rw [if_pos ht] at hpc; simp at hpc
    · rw [if_neg ht] at hpc
      injection hpc with hsegs
      subst hsegs
      obtain ⟨j, p, hg, hc, hk, _⟩ :=
        renderSegs_mem_origin (jsSplit codeMarker text) 0 s hmem
      exact ⟨j, p, hg, hc, by simpa using hk⟩

/-- Witness for C1 at the example text and its code segment. -/
theorem content_renderer_parity_witness :
    ∃ j p, (jsSplit codeMarker exampleSegText).get? j = some p ∧
      (Segment.mk SegKind.code "x=1").content = jsTrim p ∧
      ((Segment.mk SegKind.code "x=1").kind = SegKind.code ↔ j % 2 = 1) :=
  content_renderer_parity.2 exampleSegText
    [⟨SegKind.prose, "intro"⟩, ⟨SegKind.code, "x=1"⟩, ⟨SegKind.prose, "outro"⟩]
    ⟨SegKind.code, "x=1"⟩ rfl (by decide)

/-- C2 is refuted: on the text made of two adjacent CODE markers every
fragment trims to empty, so the claim predicts the empty segment sequence,
but the renderer emits an empty code segment — odd-indexed fragments are not
dropped when they trim to empty. -/
theorem empty_code_segment_rendered :
    parseQuestionContent (codeMarker ++ codeMarker) = some [⟨SegKind.code, ""⟩] ∧
    parseQuestionContent (codeMarker ++ codeMarker) ≠ some [] :=
  ⟨rfl, by decide⟩

/-- C2 amended: every rendered fragment is trimmed before classification; an
even-indexed (prose) fragment that trims to empty is dropped, so no empty
prose segment is rendered; an odd-indexed (code) fragment is always rendered
with its trimmed content, even when that content is empty. -/
theorem prose_dropped_code_always_rendered :
    ∀ (text : String) (segs : List Segment),
      parseQuestionContent text = some segs →
      (∀ s ∈ segs, s.kind = SegKind.prose → s.content ≠ "") ∧
      (∀ (j : Nat) (p : String),
        (jsSplit codeMarker text).get? j = some p → j % 2 = 1 →
        (⟨SegKind.code, jsTrim p⟩ : Segment) ∈ segs) := by
  intro text segs hpc
  rw [parseQuestionContent] at hpc
  by_cases ht : text = ""
  · rw [if_pos ht] at hpc; simp at hpc
  · rw [if_neg ht] at hpc
    injection hpc with hsegs
    subst hsegs
    constructor
    · intro s hmem hk
      obtain ⟨j, p, _, hc, _, hp⟩ :=
        renderSegs_mem_origin (jsSplit codeMarker text) 0 s hmem
      rw [hc]
      exact hp hk
    · intro j p hg hj
      exact renderSegs_code_complete (jsSplit codeMarker text) 0 j p hg (by simpa using hj)

/-- Witness for the amended C2: the empty odd fragment of the two-marker text
is rendered as a code segment. -/
theorem prose_dropped_code_always_rendered_witness :
    (⟨SegKind.code, jsTrim ""⟩ : Segment) ∈ ([⟨SegKind.code, ""⟩] : List Segment) :=
  (prose_dropped_code_always_rendered (codeMarker ++ codeMarker)
    [⟨SegKind.code, ""⟩] rfl).2 1 "" rfl (by decide)

/-- C7: when the split has an even number of fragments (an odd number of
CODE marker occurrences, a code block opened but never closed), segmentation
still succeeds and the trailing fragment is rendered as a code segment, the
last of the output. -/
theorem unmatched_code_marker_tolerated :
    ∀ (text : String) (l : List String) (p : String),
      jsSplit codeMarker text = l ++ [p] →
      (l ++ [p]).length % 2 = 0 →
      text ≠ "" →
      ∃ pre, parseQuestionContent text = some (pre ++ [⟨SegKind.code, jsTrim p⟩]) := by
  intro text l p hsplit hlen ht
  have hpar : (0 + l.length) % 2 = 1 := by
    simp only [List.length_append, List.length_cons, List.length_nil] at hlen
    omega
  obtain ⟨pre, hpre⟩ := renderSegs_concat_code l 0 p hpar
  refine ⟨pre, ?_⟩
  rw [parseQuestionContent, if_neg ht, hsplit, hpre]

/-- A text with a single CODE marker occurrence. -/
def oddMarkerText : String := "a \"\"\"CODE\"\"\" b"

/-- Witness for C7 at a text whose single code block is never closed. -/
theorem unmatched_code_marker_tolerated_witness :
    ∃ pre, parseQuestionContent oddMarkerText =
      some (pre ++ [⟨SegKind.code, jsTrim " b"⟩]) :=
  unmatched_code_marker_tolerated oddMarkerText ["a "] " b" rfl (by decide) (by decide)

/-- C9: the renderer returns null (no container at all) for the empty, falsy
text, and a segment container for every non-empty text. -/
theorem falsy_text_renders_null :
    parseQuestionContent "" = none ∧
    ∀ (text : String), text ≠ "" → ∃ segs, parseQuestionContent text = some segs := by
  constructor
  · rfl
  · intro text ht
    exact ⟨renderSegs 0 (jsSplit codeMarker text), by rw [parseQuestionContent, if_neg ht]⟩

/-- Witness for C9 at a non-empty text. -/
theorem falsy_text_renders_null_witness :
    ∃ segs, parseQuestionContent "hello" = some segs :=
  falsy_text_renders_null.2 "hello" (by decide)

/-- C3: spec-modelled parser — whenever any question block of the raw text
fails structural validation, parse returns a single ParseError carrying the
1-based index of a failing block (the earliest one) together with that
block's failed rule, and returns no QuestionRecords at all: no partial deck
exists. -/
theorem parse_atomic_failure :
    ∀ (raw : String) (i : Nat) (b r : String),
      ((jsSplit questionMarker raw).drop 1).get? i = some b →
      parseBlock b = Except.error r →
      ∃ j bj rj, ((jsSplit questionMarker raw).drop 1).get? j = some bj ∧
        parseBlock bj = Except.error rj ∧
        parse raw = Except.error ⟨j + 1, rj⟩ ∧
        ∀ qs, parse raw ≠ Except.ok qs := by
  intro raw i b r hg hb
  obtain ⟨j, bj, rj, hji, hgj, hbj, hpb⟩ :=
    parseBlocks_first_error ((jsSplit questionMarker raw).drop 1) 1 i b r hg hb
  have hne : ¬ ((jsSplit questionMarker raw).drop 1).isEmpty = true := by
    intro hemp
    rw [List.isEmpty_iff] at hemp
    rw [hemp] at hg
    simp at hg
  have hparse : parse raw = Except.error ⟨j + 1, rj⟩ := by
    rw [parse]
    simp only [hne, if_false, Bool.false_eq_true]
    rw [Nat.add_comm 1 j] at hpb
    exact hpb
  refine ⟨j, bj, rj, hgj, hbj, hparse, ?_⟩
  intro qs hqs
  rw [hparse] at hqs
  simp at hqs

/-- A well-formed question block used in concrete checks. -/
def goodBlock : String :=
  "\nWhat is 1+1?\n\"\"\"CHOICES\"\"\"\nA: 1\nB: 2\nC: 3\nD: 4\n\"\"\"ANSWER\"\"\"\nB\n"

/-- A question block whose ANSWER marker is missing. -/
def brokenBlock : String :=
  "\nBroken?\n\"\"\"CHOICES\"\"\"\nA: 1\nB: 2\nC: 3\nD: 4\nB\n"

/-- A raw text whose first block is well-formed and whose second block is
missing its ANSWER marker. -/
def malformedRaw : String :=
  questionMarker ++ goodBlock ++ questionMarker ++ brokenBlock

/-- Witness for C3 at a two-block text whose second block is malformed. -/
theorem parse_atomic_failure_witness :
    ∃ j bj rj, ((jsSplit questionMarker malformedRaw).drop 1).get? j = some bj ∧
      parseBlock bj = Except.error rj ∧
      parse malformedRaw = Except.error ⟨j + 1, rj⟩ ∧
      ∀ qs, parse malformedRaw ≠ Except.ok qs :=
  parse_atomic_failure malformedRaw 1 brokenBlock
    "missing or duplicated ANSWER marker" rfl rfl

/-- C4: spec-modelled session engine — submitting while the current question
is already answered fails with AlreadyAnsweredError, and after any
successful submission a second submission on the resulting session fails the
same way: submitAnswer succeeds at most once per question. -/
theorem submit_answer_at_most_once :
    (∀ (s : QuizSession) (i sc : Nat) (letter : Char),
      s.state = SessionState.inProgress i sc true →
      submitAnswer s letter = Except.error SessionError.alreadyAnswered) ∧
    (∀ (s : QuizSession) (letter l2 : Char) (out : QuizSession × SubmitFeedback),
      submitAnswer s letter = Except.ok out →
      submitAnswer out.1 l2 = Except.error SessionError.alreadyAnswered) := by
  constructor
  · intro s i sc letter hst
    rw [submitAnswer, hst]
    simp
  · intro s letter l2 out hok
    cases hst : s.state with
    | completed sc tot =>
      rw [submitAnswer, hst] at hok
      simp at hok
    | inProgress i sc answered =>
      rw [submitAnswer, hst] at hok
      cases answered with
      | true => simp at hok
      | false =>
        simp only [Bool.false_eq_true, if_false] at hok
        cases hq : s.deck.get? i with
        | none => rw [hq] at hok; simp at hok
        | some q =>
          rw [hq] at hok
          simp only [Except.ok.injEq] at hok
          subst hok
          rw [submitAnswer]
          simp

/-- A sample validated question record. -/
def sampleRecord : QuestionRecord :=
  ⟨"What is 1+1?", [('A', "1"), ('B', "2"), ('C', "3"), ('D', "4")], 'B'⟩

/-- Witness for C4: after a correct submission on a one-question session the
second submission is rejected. -/
theorem submit_answer_at_most_once_witness :
    submitAnswer ⟨[sampleRecord], SessionState.inProgress 0 1 true⟩ 'A' =
      Except.error SessionError.alreadyAnswered :=
  submit_answer_at_most_once.2 (QuizSession.start [sampleRecord]) 'B' 'A'
    (⟨[sampleRecord], SessionState.inProgress 0 1 true⟩, ⟨true, 'B'⟩) rfl

/-- C5: saving a completed result keeps the history capped at 20 entries
with the new entry first: below the cap the entry is pushed to the front and
nothing is evicted, and at the cap the oldest (last) entry is evicted. -/
theorem history_capped_newest_first :
    ∀ (history : List HistoryEntry) (entry : HistoryEntry),
      history.length ≤ 20 →
      (saveQuizToHistory history entry).length ≤ 20 ∧
      (saveQuizToHistory history entry).head? = some entry ∧
      (history.length < 20 → saveQuizToHistory history entry = entry :: history) ∧
      (history.length = 20 →
        saveQuizToHistory history entry = entry :: history.dropLast) := by
  intro history entry hlen
  simp only [saveQuizToHistory, List.length_cons]
  by_cases hc : history.length + 1 > 20
  · have h20 : history.length = 20 := by omega
    rw [if_pos hc]
    have hne : history ≠ [] := by
      intro h0
      rw [h0] at h20
      simp at h20
    rw [List.dropLast_cons_of_ne_nil hne]
    refine ⟨?_, rfl, ?_, fun _ => rfl⟩
    · simp only [List.length_cons, List.length_dropLast]
      omega
    · intro hlt; omega
  · rw [if_neg hc]
    refine ⟨by simp only [List.length_cons]; omega, rfl, fun _ => rfl, ?_⟩
    intro h20; omega

/-- A sample history entry. -/
def sampleEntry : HistoryEntry := ⟨"2026-02-03T04:05:06.000Z", 1, 2, 50, "0m 30s"⟩

/-- A second sample history entry. -/
def sampleEntry2 : HistoryEntry := ⟨"2026-02-04T04:05:06.000Z", 2, 2, 100, "N/A"⟩

/-- Witness for C5 at a history already holding exactly 20 entries. -/
theorem history_capped_newest_first_witness :
    (saveQuizToHistory (List.replicate 20 sampleEntry) sampleEntry2).length ≤ 20 ∧
    (saveQuizToHistory (List.replicate 20 sampleEntry) sampleEntry2).head? =
      some sampleEntry2 ∧
    ((List.replicate 20 sampleEntry).length < 20 →
      saveQuizToHistory (List.replicate 20 sampleEntry) sampleEntry2 =
        sampleEntry2 :: List.replicate 20 sampleEntry) ∧
    ((List.replicate 20 sampleEntry).length = 20 →
      saveQuizToHistory (List.replicate 20 sampleEntry) sampleEntry2 =
        sampleEntry2 :: (List.replicate 20 sampleEntry).dropLast) :=
  history_capped_newest_first (List.replicate 20 sampleEntry) sampleEntry2 (by simp)

/-- Half-up rounding in natural arithmetic agrees with the floor of the
exact rational percentage plus one half. -/
theorem roundHalfUpPercent_eq_floor (sc t : Nat) (ht : 0 < t) :
    roundHalfUpPercent sc t = ⌊(100 * sc : ℚ) / t + 1 / 2⌋₊ := by
  have htq : (t : ℚ) ≠ 0 := Nat.cast_ne_zero.mpr ht.ne'
  have h1 : (100 * sc : ℚ) / t + 1 / 2 = ((200 * sc + t : ℕ) : ℚ) / ((2 * t : ℕ) : ℚ) := by
    push_cast
    field_simp
    ring
  rw [roundHalfUpPercent, h1, Nat.floor_div_eq_div]

/-- C6: spec-modelled results — in the Completed state, results returns the
score, the deck length as total, and a percentage that equals the exact
rational value of 100 times score over total rounded to the nearest whole
number with ties rounded up (the floor of the value plus one half). -/
theorem results_percentage_half_up :
    ∀ (s : QuizSession) (sc tot : Nat),
      s.state = SessionState.completed sc tot →
      0 < s.deck.length →
      results s = Except.ok ⟨sc, s.deck.length, roundHalfUpPercent sc s.deck.length⟩ ∧
      roundHalfUpPercent sc s.deck.length =
        ⌊(100 * sc : ℚ) / s.deck.length + 1 / 2⌋₊ := by
  intro s sc tot hst hdeck
  refine ⟨?_, roundHalfUpPercent_eq_floor sc s.deck.length hdeck⟩
  rw [results, hst]

/-- A completed two-question session with one correct answer. -/
def sampleSession : QuizSession :=
  ⟨[sampleRecord, sampleRecord], SessionState.completed 1 2⟩

/-- Witness for C6 at a completed session scoring 1 of 2. -/
theorem results_percentage_half_up_witness :
    results sampleSession =
      Except.ok ⟨1, sampleSession.deck.length,
        roundHalfUpPercent 1 sampleSession.deck.length⟩ ∧
    roundHalfUpPercent 1 sampleSession.deck.length =
      ⌊(100 * (1 : ℕ) : ℚ) / (sampleSession.deck.length : ℚ) + 1 / 2⌋₊ :=
  results_percentage_half_up sampleSession 1 2 rfl (by decide)

/-- C8: both history writers produce an entry whose record type has exactly
the five fields date, score, total, percentage and duration, whose date is
the supplied completion timestamp, and whose score, total and percentage are
taken unchanged from the results payload; only the duration differs between
the two writers. -/
theorem history_entry_fields :
    ∀ (dateIso : String) (elapsedMs : Option Nat) (data : ResultsPayload),
      makeEntryStatic dateIso elapsedMs data =
        { date := dateIso, score := data.score, total := data.total,
          percentage := data.percentage,
          duration := (makeEntryStatic dateIso elapsedMs data).duration } ∧
      makeEntryReact dateIso data =
        { date := dateIso, score := data.score, total := data.total,
          percentage := data.percentage, duration := "N/A" } := by
  intro dateIso elapsedMs data
  exact ⟨rfl, rfl⟩

/-- C10: the legacy static frontend and the React results screen compute the
same performance message at every percentage value. -/
theorem performance_messages_agree :
    ∀ (p : Int), showResultsMessage p = resultsScreenMessage p := by
  intro p
  rfl

end StudyQuiz
